import Mathlib

/-!
Verification of the `rsuanalyzer` geometric reconstruction engine.

The Ligand Frame Solver (`calc_lig_end`, `calc_inner_vecs_and_rots`,
`lig_type_to_signs` from `rsuanalyzer/calc_lig_end.py`) is embedded
directly from the source.  Rotations (scipy `Rotation` objects built with
`R.from_euler` on a single axis) are embedded as 3x3 real matrices in the
standard convention used by scipy: `from_euler('x', a)` and
`from_euler('z', a)` give the usual rotation matrices, `r1 * r2` is the
matrix product (so `(r1 * r2).apply v = r1.apply (r2.apply v)`), and
`r.apply v` is matrix-vector multiplication.  Angles are given in degrees;
the Python inputs are IEEE floats, which are rational numbers, so angle
parameters are embedded as rationals and converted to radians inside the
trigonometric functions.  Fallible Python code (a `raise ValueError`) is
embedded as `Option`, with `none` for the error.
-/

namespace RSUAnalyzer

open Real Matrix

abbrev Mat3 := Matrix (Fin 3) (Fin 3) ℝ

abbrev Vec3 := Fin 3 → ℝ

/-- Cosine of an angle given in degrees. -/
noncomputable def cosd (q : ℚ) : ℝ := Real.cos ((q : ℝ) * Real.pi / 180)

/-- Sine of an angle given in degrees. -/
noncomputable def sind (q : ℚ) : ℝ := Real.sin ((q : ℝ) * Real.pi / 180)

/-- `scipy.spatial.transform.Rotation.from_euler('x', q, degrees=True)`
as a 3x3 matrix. -/
noncomputable def Rx (q : ℚ) : Mat3 :=
  !![1, 0, 0;
     0, cosd q, -(sind q);
     0, sind q, cosd q]

/-- `scipy.spatial.transform.Rotation.from_euler('z', q, degrees=True)`
as a 3x3 matrix. -/
noncomputable def Rz (q : ℚ) : Mat3 :=
  !![cosd q, -(sind q), 0;
     sind q, cosd q, 0;
     0, 0, 1]

/-- The four valid ligand-type symbols, as checked by `calc_lig_end`. -/
def validLigTypes : List String := ["RR", "RL", "LR", "LL"]

/-- `lig_type_to_signs` from `rsuanalyzer/calc_lig_end.py`: converts the
ligand type to the pair of rotation-direction signs; raises (here: `none`)
on any other string. -/
def lig_type_to_signs (lig_type : String) : Option (ℤ × ℤ) :=
  if lig_type = "RR" then some (1, 1)
  else if lig_type = "RL" then some (1, -1)
  else if lig_type = "LR" then some (-1, 1)
  else if lig_type = "LL" then some (-1, -1)
  else none

/-- The `InnerVecsAndRots` typed dictionary from
`rsuanalyzer/calc_lig_end.py`. -/
structure InnerVecsAndRots where
  x_ab_in_system_a : Vec3
  x_bc_in_system_a : Vec3
  rot_ab1 : Mat3
  rot_b1b2 : Mat3
  rot_b2c1 : Mat3
  rot_c1c2 : Mat3

/-- `calc_inner_vecs_and_rots` from `rsuanalyzer/calc_lig_end.py`.  It
calls `lig_type_to_signs`, which raises on an invalid ligand type, so the
result is an `Option`. -/
noncomputable def calc_inner_vecs_and_rots (lig_type : String) (theta : ℚ) :
    Option InnerVecsAndRots :=
  (lig_type_to_signs lig_type).map fun jk =>
    { x_ab_in_system_a := ![1, 0, 0]
      x_bc_in_system_a :=
        (Rx ((jk.1 : ℚ) * theta) * Rz ((jk.1 : ℚ) * 60)).mulVec ![1, 0, 0]
      rot_ab1 := Rx ((jk.1 : ℚ) * theta)
      rot_b1b2 := Rz ((jk.1 : ℚ) * 60)
      rot_b2c1 := Rx ((jk.2 : ℚ) * theta)
      rot_c1c2 := if lig_type ∈ (["RR", "LL"] : List String)
                  then Rx 180 else Rx 0 }

/-- `calc_lig_end` from `rsuanalyzer/calc_lig_end.py`: validates the
ligand type and `0 <= theta <= 90`, then returns the displacement
`x_ac_in_system_a = x_ab_in_system_a + x_bc_in_system_a` and the total
rotation `rot_ac = rot_ab1 * rot_b1b2 * rot_b2c1 * rot_c1c2`.
`none` models the `ValueError` (the spec's `InvalidArgument`). -/
noncomputable def calc_lig_end (lig_type : String) (theta : ℚ) :
    Option (Vec3 × Mat3) :=
  if lig_type ∉ validLigTypes then none
  else if ¬ (0 ≤ theta ∧ theta ≤ 90) then none
  else (calc_inner_vecs_and_rots lig_type theta).map fun v =>
    (v.x_ab_in_system_a + v.x_bc_in_system_a,
     v.rot_ab1 * v.rot_b1b2 * v.rot_b2c1 * v.rot_c1c2)

/-- Euclidean norm of a 3-vector. -/
noncomputable def enorm (v : Vec3) : ℝ :=
  Real.sqrt (v 0 ^ 2 + v 1 ^ 2 + v 2 ^ 2)

/-- The displacement component (first component) of `calc_lig_end`. -/
noncomputable def dispOf (lig_type : String) (theta : ℚ) : Option Vec3 :=
  (calc_lig_end lig_type theta).map Prod.fst

/-- The total-rotation component (second component) of `calc_lig_end`. -/
noncomputable def rotOf (lig_type : String) (theta : ℚ) : Option Mat3 :=
  (calc_lig_end lig_type theta).map Prod.snd

/-- The bracket stripping performed in
`analysis/chain_visualization/src/synt1_theta0.py`:
`CONF_ID.replace("(", "").replace(")", "")`.  Both replacements delete
single characters, so the composite is the filter removing every round
bracket character. -/
def stripBrackets (s : String) : String :=
  String.mk (s.data.filter fun c => !(c = '(' || c = ')'))

/-- Ligand-type tokens of a conformation, as an enumeration. -/
inductive LigType where
  | RR
  | RL
  | LR
  | LL
  deriving DecidableEq

/-- The two-character symbol of a ligand type. -/
def ligTypeStr : LigType → String
  | .RR => "RR"
  | .RL => "RL"
  | .LR => "LR"
  | .LL => "LL"

/-- Parse one two-character token as a ligand type. -/
def parseLigToken : Char × Char → Option LigType
  | ('R', 'R') => some .RR
  | ('R', 'L') => some .RL
  | ('L', 'R') => some .LR
  | ('L', 'L') => some .LL
  | _ => none

/-- Characters allowed in a metal-bridge token of the ring grammar. -/
def isBridgeChar (c : Char) : Bool := c = 'F' || c = 'B'

/-- Group a character stream into two-character tokens; `none` when the
length is odd. -/
def toPairs : List Char → Option (List (Char × Char))
  | [] => some []
  | [_] => none
  | a :: b :: rest => (toPairs rest).map fun ps => (a, b) :: ps

/-- Modelled from the spec: the conformation grammar of sections 3 and 6
(the Ring Walker's parser is not under `src/`).  The flattened,
bracket-stripped stream is grouped in fixed-size tokens of 2 characters
each; ligand tokens alternate with metal-bridge tokens, starting with a
ligand token.  An unrecognized token fails (`InvalidArgument`, here
`none`). -/
def parseConfTokens : List (Char × Char) → Option (List LigType)
  | [] => some []
  | [t] => (parseLigToken t).map fun l => [l]
  | t :: b :: rest =>
    match parseLigToken t with
    | none => none
    | some l =>
      if isBridgeChar b.1 && isBridgeChar b.2 then
        (parseConfTokens rest).map fun ls => l :: ls
      else none

/-- Modelled from the spec: parse a flat conformation string into its
ligand tokens; `none` on odd length or unrecognized tokens (section 7). -/
def parseConf (s : String) : Option (List LigType) :=
  (toPairs s.data).bind parseConfTokens

/-- The Ligand Frame Solver invoked on a ligand token.  The default value
is never reached for a validated tilt angle, since the token's symbol is
one of the four valid ones. -/
noncomputable def solveLig (l : LigType) (theta : ℚ) : Vec3 × Mat3 :=
  (calc_lig_end (ligTypeStr l) theta).getD (0, 1)

/-- Modelled from the spec: the Ring Walker's accumulation loop (section
4.2; the walker itself is not under `src/`).  A running frame (absolute
position and orientation) starts at the origin with identity orientation;
for each ligand token the local displacement is rotated into the absolute
orientation and added to the position, giving the metal center recorded
for that vertex, and the orientation is composed with the ligand's local
rotation followed by the delta bridge rotation.  The spec fixes the
bridge rotation's axis only as "a fixed axis"; the x-axis is chosen here,
and no claim settled below depends on that choice. -/
noncomputable def walkMetals (p : Vec3) (o : Mat3) (theta delta : ℚ) :
    List LigType → List Vec3
  | [] => []
  | l :: rest =>
    let dr := solveLig l theta
    let m := p + o.mulVec dr.1
    m :: walkMetals m (o * dr.2 * Rx delta) theta delta rest

/-- Modelled from the spec: `calc_metal_positions` (sections 4.2 and 7;
not under `src/`, only its caller `synt1_theta0.py` is).  Validates the
tilt angle as the Ligand Frame Solver does (an invalid theta would make
every solver call fail, and the walker propagates that error), parses the
conformation string, and walks the ring. -/
noncomputable def calc_metal_positions (conf : String) (theta delta : ℚ) :
    Option (List Vec3) :=
  if ¬ (0 ≤ theta ∧ theta ≤ 90) then none
  else (parseConf conf).map (walkMetals 0 1 theta delta)

end RSUAnalyzer

namespace RSUAnalyzer

/-! Helper lemmas: trigonometric values at the concrete angles used by
the solver, explicit forms of the rotation matrices, and basic facts
about the sign map and the walker. -/

theorem cosd_zero : cosd 0 = 1 := by
  have h : ((0 : ℚ) : ℝ) * Real.pi / 180 = 0 := by push_cast; ring
  rw [cosd, h, Real.cos_zero]

theorem sind_zero : sind 0 = 0 := by
  have h : ((0 : ℚ) : ℝ) * Real.pi / 180 = 0 := by push_cast; ring
  rw [sind, h, Real.sin_zero]

theorem cosd_sixty : cosd 60 = 1 / 2 := by
  have h : ((60 : ℚ) : ℝ) * Real.pi / 180 = Real.pi / 3 := by push_cast; ring
  rw [cosd, h, Real.cos_pi_div_three]

theorem sind_sixty : sind 60 = Real.sqrt 3 / 2 := by
  have h : ((60 : ℚ) : ℝ) * Real.pi / 180 = Real.pi / 3 := by push_cast; ring
  rw [sind, h, Real.sin_pi_div_three]

theorem cosd_ninety : cosd 90 = 0 := by
  have h : ((90 : ℚ) : ℝ) * Real.pi / 180 = Real.pi / 2 := by push_cast; ring
  rw [cosd, h, Real.cos_pi_div_two]

theorem sind_ninety : sind 90 = 1 := by
  have h : ((90 : ℚ) : ℝ) * Real.pi / 180 = Real.pi / 2 := by push_cast; ring
  rw [sind, h, Real.sin_pi_div_two]

theorem cosd_oneeighty : cosd 180 = -1 := by
  have h : ((180 : ℚ) : ℝ) * Real.pi / 180 = Real.pi := by push_cast; ring
  rw [cosd, h, Real.cos_pi]

theorem sind_oneeighty : sind 180 = 0 := by
  have h : ((180 : ℚ) : ℝ) * Real.pi / 180 = Real.pi := by push_cast; ring
  rw [sind, h, Real.sin_pi]

theorem cosd_neg (q : ℚ) : cosd (-q) = cosd q := by
  have h : ((-q : ℚ) : ℝ) * Real.pi / 180 = -(((q : ℚ) : ℝ) * Real.pi / 180) := by
    push_cast; ring
  rw [cosd, h, Real.cos_neg, cosd]

theorem sind_neg (q : ℚ) : sind (-q) = -(sind q) := by
  have h : ((-q : ℚ) : ℝ) * Real.pi / 180 = -(((q : ℚ) : ℝ) * Real.pi / 180) := by
    push_cast; ring
  rw [sind, h, Real.sin_neg, sind]

theorem sind_sq_add_cosd_sq (q : ℚ) : sind q ^ 2 + cosd q ^ 2 = 1 :=
  Real.sin_sq_add_cos_sq _

theorem Rx_zero : Rx 0 = 1 := by
  ext i j
  fin_cases i <;> fin_cases j <;>
    simp [Rx, cosd_zero, sind_zero, Matrix.one_apply, Matrix.vecHead,
      Matrix.vecTail]

theorem Rx_ninety : Rx 90 = !![1, 0, 0; 0, 0, -1; 0, 1, 0] := by
  rw [Rx, cosd_ninety, sind_ninety]

theorem Rx_neg_ninety : Rx (-90) = !![1, 0, 0; 0, 0, 1; 0, -1, 0] := by
  rw [Rx, cosd_neg, sind_neg, cosd_ninety, sind_ninety]
  norm_num

theorem Rx_oneeighty : Rx 180 = !![1, 0, 0; 0, -1, 0; 0, 0, -1] := by
  rw [Rx, cosd_oneeighty, sind_oneeighty]
  norm_num

theorem Rz_sixty :
    Rz 60 = !![(1 : ℝ) / 2, -(Real.sqrt 3 / 2), 0;
               Real.sqrt 3 / 2, 1 / 2, 0;
               0, 0, 1] := by
  rw [Rz, cosd_sixty, sind_sixty]

theorem signs_some_of_mem (s : String) (h : s ∈ validLigTypes) :
    ∃ jk : ℤ × ℤ, lig_type_to_signs s = some jk := by
  have h4 : s = "RR" ∨ s = "RL" ∨ s = "LR" ∨ s = "LL" := by
    simpa [validLigTypes] using h
  rcases h4 with h | h | h | h <;> subst h
  · exact ⟨(1, 1), rfl⟩
  · exact ⟨(1, -1), rfl⟩
  · exact ⟨(-1, 1), rfl⟩
  · exact ⟨(-1, -1), rfl⟩

theorem mem_validLigTypes_iff (s : String) :
    s ∈ validLigTypes ↔ s = "RR" ∨ s = "RL" ∨ s = "LR" ∨ s = "LL" := by
  simp [validLigTypes]

theorem Rz_mulVec_e0 (b : ℚ) :
    (Rz b).mulVec ![1, 0, 0] = ![cosd b, sind b, 0] := by
  funext i
  fin_cases i <;>
    simp [Rz, Matrix.mulVec, Matrix.dotProduct, Fin.sum_univ_three,
      Matrix.vecHead, Matrix.vecTail]

theorem Rx_mulVec (a : ℚ) (x y z : ℝ) :
    (Rx a).mulVec ![x, y, z] =
      ![x, cosd a * y - sind a * z, sind a * y + cosd a * z] := by
  funext i
  fin_cases i <;>
    (simp [Rx, Matrix.mulVec, Matrix.dotProduct, Fin.sum_univ_three,
      Matrix.vecHead, Matrix.vecTail]; try ring)

theorem disp_formula (a b : ℚ) :
    ![1, 0, 0] + (Rx a * Rz b).mulVec ![1, 0, 0] =
      ![1 + cosd b, cosd a * sind b, sind a * sind b] := by
  rw [← Matrix.mulVec_mulVec, Rz_mulVec_e0, Rx_mulVec]
  funext i
  fin_cases i <;>
    simp [Matrix.vecHead, Matrix.vecTail]

theorem enorm_vec (x y z : ℝ) :
    enorm ![x, y, z] = Real.sqrt (x ^ 2 + y ^ 2 + z ^ 2) := by
  rw [enorm]
  norm_num [Matrix.vecHead, Matrix.vecTail]

theorem enorm_disp_formula (a b : ℚ) :
    enorm (![1, 0, 0] + (Rx a * Rz b).mulVec ![1, 0, 0]) =
      Real.sqrt (2 + 2 * cosd b) := by
  rw [disp_formula, enorm_vec]
  have h := sind_sq_add_cosd_sq a
  have hb := sind_sq_add_cosd_sq b
  rw [show (1 + cosd b) ^ 2 + (cosd a * sind b) ^ 2 + (sind a * sind b) ^ 2 =
      2 + 2 * cosd b by linear_combination sind b ^ 2 * h + hb]

theorem signs_fst_pm (s : String) (jk : ℤ × ℤ)
    (h : lig_type_to_signs s = some jk) : jk.1 = 1 ∨ jk.1 = -1 := by
  rw [lig_type_to_signs] at h
  split_ifs at h
  all_goals first
    | exact Option.noConfusion h
    | (obtain rfl : _ = jk := Option.some.inj h; simp)

theorem dispOf_RR_zero :
    dispOf "RR" 0 = some ![3 / 2, Real.sqrt 3 / 2, 0] := by
  rw [dispOf, calc_lig_end, if_neg (by decide), if_neg (by norm_num),
    calc_inner_vecs_and_rots,
    show lig_type_to_signs "RR" = some (1, 1) from rfl]
  simp only [Option.map_some', Option.some.injEq]
  rw [disp_formula]
  norm_num [cosd_zero, sind_zero, cosd_sixty, sind_sixty]

theorem calc_lig_end_isSome_of_valid (s : String) (θ : ℚ)
    (hs : s ∈ validLigTypes) (h0 : 0 ≤ θ) (h90 : θ ≤ 90) :
    (calc_lig_end s θ).isSome = true := by
  obtain ⟨jk, hjk⟩ := signs_some_of_mem s hs
  rw [calc_lig_end, if_neg (not_not_intro hs),
    if_neg (not_not_intro ⟨h0, h90⟩)]
  simp [calc_inner_vecs_and_rots, hjk]

theorem calc_lig_end_none_of_invalid_theta (s : String) (θ : ℚ)
    (h : ¬ (0 ≤ θ ∧ θ ≤ 90)) : calc_lig_end s θ = none := by
  rcases em (s ∉ validLigTypes) with h1 | h1
  · rw [calc_lig_end, if_pos h1]
  · rw [calc_lig_end, if_neg h1, if_pos h]

theorem walkMetals_length (theta delta : ℚ) (ligs : List LigType) :
    ∀ (p : Vec3) (o : Mat3),
      (walkMetals p o theta delta ligs).length = ligs.length := by
  induction ligs with
  | nil => intro p o; rfl
  | cons l rest ih =>
    intro p o
    rw [walkMetals]
    simp only [List.length_cons]
    rw [ih]

/-- C5: `lig_type_to_signs` is total on the four-element domain and
returns exactly RR→(+1,+1), RL→(+1,−1), LR→(−1,+1), LL→(−1,−1). -/
theorem lig_type_to_signs_spec :
    lig_type_to_signs "RR" = some (1, 1) ∧
    lig_type_to_signs "RL" = some (1, -1) ∧
    lig_type_to_signs "LR" = some (-1, 1) ∧
    lig_type_to_signs "LL" = some (-1, -1) := by
  refine ⟨?_, ?_, ?_, ?_⟩ <;> rfl

/-- C10: once `calc_lig_end`'s own validation has passed (the ligand type
is one of the four values in `validLigTypes`), the error branch of
`lig_type_to_signs` is unreachable: the call returns a sign pair. -/
theorem lig_type_to_signs_total_on_valid (s : String)
    (h : s ∈ validLigTypes) : (lig_type_to_signs s).isSome = true := by
  simp only [validLigTypes, List.mem_cons, List.mem_singleton,
    List.not_mem_nil, or_false] at h
  rcases h with h | h | h | h <;> subst h <;> rfl

/-- Witness for C10 at the concrete input "RR". -/
theorem lig_type_to_signs_total_on_valid_witness :
    (lig_type_to_signs "RR").isSome = true :=
  lig_type_to_signs_total_on_valid "RR" (by decide)

/-- C3: `calc_lig_end` fails (returns `none`, the embedding of the
`ValueError` / `InvalidArgument`) exactly when the ligand type is not one
of the four valid symbols or theta lies outside [0, 90]; the bounds are
inclusive, so theta = 0 and theta = 90 succeed for every valid ligand
type while theta = 90.0001 and theta = −0.0001 fail. -/
theorem calc_lig_end_error_characterized :
    (∀ (s : String) (θ : ℚ),
        calc_lig_end s θ = none ↔
          s ∉ validLigTypes ∨ ¬ (0 ≤ θ ∧ θ ≤ 90)) ∧
    (∀ s, s ∈ validLigTypes →
        (calc_lig_end s 0).isSome = true ∧
        (calc_lig_end s 90).isSome = true ∧
        calc_lig_end s (90 + 1 / 10000) = none ∧
        calc_lig_end s (-(1 / 10000)) = none) := by
  constructor
  · intro s θ
    by_cases hmem : s ∈ validLigTypes
    · by_cases hθ : 0 ≤ θ ∧ θ ≤ 90
      · obtain ⟨jk, hjk⟩ := signs_some_of_mem s hmem
        rw [calc_lig_end, if_neg (not_not_intro hmem),
          if_neg (not_not_intro hθ)]
        simp [calc_inner_vecs_and_rots, hjk, hmem, hθ.1, hθ.2]
      · simp [calc_lig_end_none_of_invalid_theta s θ hθ, hθ]
    · rw [calc_lig_end, if_pos hmem]
      simp [hmem]
  · intro s hs
    exact ⟨calc_lig_end_isSome_of_valid s 0 hs (by norm_num) (by norm_num),
           calc_lig_end_isSome_of_valid s 90 hs (by norm_num) (by norm_num),
           calc_lig_end_none_of_invalid_theta s _ (by norm_num),
           calc_lig_end_none_of_invalid_theta s _ (by norm_num)⟩

/-- Witness for C3 at the concrete ligand type "RR". -/
theorem calc_lig_end_error_characterized_witness :
    (calc_lig_end "RR" 0).isSome = true ∧
    (calc_lig_end "RR" 90).isSome = true ∧
    calc_lig_end "RR" (90 + 1 / 10000) = none ∧
    calc_lig_end "RR" (-(1 / 10000)) = none :=
  calc_lig_end_error_characterized.2 "RR" (by decide)

/-- C4: for every valid ligand type (with sign pair (j, k)) and theta in
[0, 90], `calc_lig_end` returns the displacement `x_ab + x_bc`, where
`x_ab` is the unit x-vector of frame A and `x_bc` is the composition of
`rot_ab1` (rotation about the local x-axis by j·theta degrees) and
`rot_b1b2` (rotation about the local z-axis by j·60 degrees) applied to
the unit x-vector, together with the total rotation
`rot_ab1 * rot_b1b2 * rot_b2c1 * rot_c1c2` in exactly that order, where
`rot_b2c1` rotates about the local x-axis by k·theta degrees and
`rot_c1c2` is the 180-degree rotation about the local x-axis for ligand
types RR and LL and the identity rotation otherwise. -/
theorem calc_lig_end_structure (s : String) (θ : ℚ) (j k : ℤ)
    (h : lig_type_to_signs s = some (j, k)) (h0 : 0 ≤ θ) (h90 : θ ≤ 90) :
    calc_lig_end s θ = some
      (![1, 0, 0] + (Rx ((j : ℚ) * θ) * Rz ((j : ℚ) * 60)).mulVec ![1, 0, 0],
       Rx ((j : ℚ) * θ) * Rz ((j : ℚ) * 60) * Rx ((k : ℚ) * θ) *
         (if s = "RR" ∨ s = "LL" then Rx 180 else 1)) := by
  have hmem : s ∈ validLigTypes := by
    rw [mem_validLigTypes_iff]
    by_contra hc
    push_neg at hc
    rw [lig_type_to_signs, if_neg hc.1, if_neg hc.2.1, if_neg hc.2.2.1,
      if_neg hc.2.2.2] at h
    exact Option.noConfusion h
  have hc2 : s ∈ (["RR", "LL"] : List String) ↔ (s = "RR" ∨ s = "LL") := by
    simp
  rw [calc_lig_end, if_neg (not_not_intro hmem),
    if_neg (not_not_intro ⟨h0, h90⟩), calc_inner_vecs_and_rots, h]
  simp only [Option.map_some', Option.some.injEq, Prod.mk.injEq]
  refine ⟨trivial, ?_⟩
  by_cases hc : s = "RR" ∨ s = "LL"
  · rw [if_pos (hc2.mpr hc), if_pos hc]
  · rw [if_neg (fun hm => hc (hc2.mp hm)), if_neg hc, Rx_zero]

/-- Witness for C4 at the concrete input ("RR", 0). -/
theorem calc_lig_end_structure_witness :
    calc_lig_end "RR" 0 = some
      (![1, 0, 0] +
         (Rx (((1 : ℤ) : ℚ) * 0) * Rz (((1 : ℤ) : ℚ) * 60)).mulVec ![1, 0, 0],
       Rx (((1 : ℤ) : ℚ) * 0) * Rz (((1 : ℤ) : ℚ) * 60) *
         Rx (((1 : ℤ) : ℚ) * 0) *
         (if "RR" = "RR" ∨ "RR" = "LL" then Rx 180 else 1)) :=
  calc_lig_end_structure "RR" 0 1 1 rfl (by norm_num) (by norm_num)

/-- C9: the displacement returned by `calc_lig_end` depends only on the
first sign derived from the ligand type: "RR" and "RL" give equal
displacements for every theta, and so do "LR" and "LL"; the returned
rotations, by contrast, can differ (they do at theta = 0). -/
theorem disp_depends_only_on_first_sign :
    (∀ θ : ℚ, dispOf "RR" θ = dispOf "RL" θ) ∧
    (∀ θ : ℚ, dispOf "LR" θ = dispOf "LL" θ) ∧
    rotOf "RR" 0 ≠ rotOf "RL" 0 := by
  refine ⟨?_, ?_, ?_⟩
  · intro θ
    by_cases hθ : 0 ≤ θ ∧ θ ≤ 90
    · rw [dispOf, dispOf, calc_lig_end, calc_lig_end,
        if_neg (not_not_intro (by decide : ("RR" : String) ∈ validLigTypes)),
        if_neg (not_not_intro (by decide : ("RL" : String) ∈ validLigTypes)),
        if_neg (not_not_intro hθ), if_neg (not_not_intro hθ)]
      simp only [calc_inner_vecs_and_rots,
        show lig_type_to_signs "RR" = some (1, 1) from rfl,
        show lig_type_to_signs "RL" = some (1, -1) from rfl,
        Option.map_some']
    · rw [dispOf, dispOf, calc_lig_end_none_of_invalid_theta "RR" θ hθ,
        calc_lig_end_none_of_invalid_theta "RL" θ hθ]
  · intro θ
    by_cases hθ : 0 ≤ θ ∧ θ ≤ 90
    · rw [dispOf, dispOf, calc_lig_end, calc_lig_end,
        if_neg (not_not_intro (by decide : ("LR" : String) ∈ validLigTypes)),
        if_neg (not_not_intro (by decide : ("LL" : String) ∈ validLigTypes)),
        if_neg (not_not_intro hθ), if_neg (not_not_intro hθ)]
      simp only [calc_inner_vecs_and_rots,
        show lig_type_to_signs "LR" = some (-1, 1) from rfl,
        show lig_type_to_signs "LL" = some (-1, -1) from rfl,
        Option.map_some']
    · rw [dispOf, dispOf, calc_lig_end_none_of_invalid_theta "LR" θ hθ,
        calc_lig_end_none_of_invalid_theta "LL" θ hθ]
  · have hRR : rotOf "RR" 0 = some (Rz 60 * Rx 180) := by
      rw [rotOf, calc_lig_end, if_neg (by decide), if_neg (by norm_num),
        calc_inner_vecs_and_rots,
        show lig_type_to_signs "RR" = some (1, 1) from rfl]
      simp only [Option.map_some', Option.some.injEq]
      rw [if_pos (by decide : ("RR" : String) ∈ (["RR", "LL"] : List String))]
      norm_num [Rx_zero]
    have hRL : rotOf "RL" 0 = some (Rz 60) := by
      rw [rotOf, calc_lig_end, if_neg (by decide), if_neg (by norm_num),
        calc_inner_vecs_and_rots,
        show lig_type_to_signs "RL" = some (1, -1) from rfl]
      simp only [Option.map_some', Option.some.injEq]
      rw [if_neg (by decide : ¬ ("RL" : String) ∈ (["RR", "LL"] : List String))]
      norm_num [Rx_zero]
    intro heq
    rw [hRR, hRL] at heq
    have h2 := Option.some.inj heq
    have h22 : (Rz 60 * Rx 180) 2 2 = (Rz 60) 2 2 := by rw [h2]
    rw [Rz_sixty, Rx_oneeighty, Matrix.mul_fin_three] at h22
    norm_num [Matrix.vecHead, Matrix.vecTail] at h22

/-- C1 (counterexample): at ligand type "RR" and theta = 0 the
displacement returned by `calc_lig_end` is (3/2, √3/2, 0), whose
Euclidean norm is √3 ≈ 1.732, not within 1e-9 of 2.  This refutes the
claim that the norm equals 2 within that tolerance. -/
theorem disp_norm_two_refuted :
    dispOf "RR" 0 = some ![3 / 2, Real.sqrt 3 / 2, 0] ∧
    ¬ (|enorm ![3 / 2, Real.sqrt 3 / 2, 0] - 2| ≤ 1 / 10 ^ 9) := by
  refine ⟨dispOf_RR_zero, ?_⟩
  have h3 : Real.sqrt 3 ^ 2 = 3 := Real.sq_sqrt (by norm_num)
  have hnn : (0 : ℝ) ≤ Real.sqrt 3 := Real.sqrt_nonneg 3
  have he : enorm ![3 / 2, Real.sqrt 3 / 2, 0] = Real.sqrt 3 := by
    rw [enorm_vec,
      show ((3 : ℝ) / 2) ^ 2 + (Real.sqrt 3 / 2) ^ 2 + (0 : ℝ) ^ 2 = 3 by
        nlinarith [h3]]
  rw [he, abs_le]
  intro hcon
  nlinarith [h3, hnn, hcon.1]

/-- C1 (amended): whenever `calc_lig_end` returns a displacement (in
particular for every ligand type in the four-value enumeration and every
theta in {0, 45, 90}), its Euclidean norm is exactly √3 — the two
unit-length segments meet at 60 degrees, so their sum has norm √3, not
2. -/
theorem disp_norm_sqrt_three (s : String) (θ : ℚ) (d : Vec3)
    (h : dispOf s θ = some d) : enorm d = Real.sqrt 3 := by
  rw [dispOf] at h
  by_cases hmem : s ∈ validLigTypes
  case neg =>
    rw [calc_lig_end, if_pos hmem] at h
    exact absurd h (by simp)
  by_cases hθ : 0 ≤ θ ∧ θ ≤ 90
  case neg =>
    rw [calc_lig_end_none_of_invalid_theta s θ hθ] at h
    exact absurd h (by simp)
  obtain ⟨jk, hjk⟩ := signs_some_of_mem s hmem
  rw [calc_lig_end, if_neg (not_not_intro hmem), if_neg (not_not_intro hθ),
    calc_inner_vecs_and_rots, hjk] at h
  simp only [Option.map_some', Option.some.injEq] at h
  rw [← h, enorm_disp_formula ((jk.1 : ℚ) * θ) ((jk.1 : ℚ) * 60)]
  have hcos : cosd ((jk.1 : ℚ) * 60) = 1 / 2 := by
    rcases signs_fst_pm s jk hjk with hj | hj <;> rw [hj]
    · rw [show (((1 : ℤ) : ℚ)) * 60 = (60 : ℚ) by norm_num, cosd_sixty]
    · rw [show (((-1 : ℤ) : ℚ)) * 60 = -(60 : ℚ) by norm_num, cosd_neg,
        cosd_sixty]
  rw [hcos]
  norm_num

/-- Witness for the amended C1 at ("RR", 0): the returned displacement
has Euclidean norm √3. -/
theorem disp_norm_sqrt_three_witness :
    enorm ![3 / 2, Real.sqrt 3 / 2, 0] = Real.sqrt 3 :=
  disp_norm_sqrt_three "RR" 0 ![3 / 2, Real.sqrt 3 / 2, 0] dispOf_RR_zero

/-- C6: there is a ligand type and a nonzero theta in (0, 90] — here
("RL", 90) — for which composing the four sub-rotations in reversed
order gives a different net rotation than the order used by
`calc_lig_end`, so the composition order must be preserved. -/
theorem rotation_order_matters :
    ∃ (s : String) (θ : ℚ), 0 < θ ∧ θ ≤ 90 ∧
      ∃ v, calc_inner_vecs_and_rots s θ = some v ∧
        v.rot_ab1 * v.rot_b1b2 * v.rot_b2c1 * v.rot_c1c2 ≠
          v.rot_c1c2 * v.rot_b2c1 * v.rot_b1b2 * v.rot_ab1 := by
  have hv : calc_inner_vecs_and_rots "RL" 90 =
      some ⟨![1, 0, 0], (Rx 90 * Rz 60).mulVec ![1, 0, 0],
            Rx 90, Rz 60, Rx (-90), Rx 0⟩ := by
    rw [calc_inner_vecs_and_rots,
      show lig_type_to_signs "RL" = some (1, -1) from rfl]
    simp only [Option.map_some', Option.some.injEq]
    rw [if_neg (by decide : ¬ ("RL" : String) ∈ (["RR", "LL"] : List String))]
    norm_num
  refine ⟨"RL", 90, by norm_num, by norm_num, _, hv, ?_⟩
  intro heq
  have h02 : (Rx 90 * Rz 60 * Rx (-90) * Rx 0) 0 2 =
      (Rx 0 * Rx (-90) * Rz 60 * Rx 90) 0 2 := by
    exact congrFun (congrFun heq 0) 2
  rw [Rx_zero, mul_one, one_mul, Rx_ninety, Rx_neg_ninety, Rz_sixty] at h02
  simp only [Matrix.mul_fin_three] at h02
  norm_num [Matrix.vecHead, Matrix.vecTail] at h02
  have h3 : (0 : ℝ) < Real.sqrt 3 := Real.sqrt_pos.mpr (by norm_num)
  linarith

/-- C2 (counterexample): stripping the bracket characters from
"RL(FF)RL(FF)RL(FF)" (as `synt1_theta0.py` does with two `replace`
calls) yields "RLFFRLFFRLFF", not "RLRLRL" as the claim asserts. -/
theorem conf_strip_not_RLRLRL :
    stripBrackets "RL(FF)RL(FF)RL(FF)" = "RLFFRLFFRLFF" ∧
    stripBrackets "RL(FF)RL(FF)RL(FF)" ≠ "RLRLRL" := by
  constructor <;> decide

/-- C2 (amended): for the actual bracket-stripped conformation string
"RLFFRLFFRLFF" (three RL ligand tokens alternating with three FF bridge
tokens), theta = 0, delta = 87, the metal-position reconstruction
succeeds and returns exactly 3 metal positions (each an element of ℝ³,
hence finite). -/
theorem metal_positions_of_stripped :
    ∃ ms : List Vec3,
      calc_metal_positions (stripBrackets "RL(FF)RL(FF)RL(FF)") 0 87 =
        some ms ∧
      ms.length = 3 := by
  refine ⟨walkMetals 0 1 0 87 [.RL, .RL, .RL], ?_, ?_⟩
  · rw [calc_metal_positions, if_neg (not_not_intro (by norm_num)),
      show parseConf (stripBrackets "RL(FF)RL(FF)RL(FF)") =
        some [LigType.RL, .RL, .RL] from by decide]
    rfl
  · exact (walkMetals_length 0 87 [LigType.RL, .RL, .RL] 0 1).trans (by rfl)

/-- C7: for every conformation string that parses into ligand tokens and
every valid theta (and any delta), the Ring Walker produces exactly one
metal-center position per ligand token, in token order. -/
theorem metal_positions_count (conf : String) (θ δ : ℚ)
    (ligs : List LigType) (hp : parseConf conf = some ligs) (h0 : 0 ≤ θ)
    (h90 : θ ≤ 90) :
    ∃ ms, calc_metal_positions conf θ δ = some ms ∧
      ms.length = ligs.length := by
  refine ⟨walkMetals 0 1 θ δ ligs, ?_, walkMetals_length θ δ ligs 0 1⟩
  rw [calc_metal_positions, if_neg (not_not_intro ⟨h0, h90⟩), hp]
  rfl

/-- Witness for C7 at conformation "RLFF", theta = 0, delta = 87. -/
theorem metal_positions_count_witness :
    ∃ ms, calc_metal_positions "RLFF" 0 87 = some ms ∧
      ms.length = [LigType.RL].length :=
  metal_positions_count "RLFF" 0 87 [.RL] (by decide) (by norm_num)
    (by norm_num)

end RSUAnalyzer
